import Mathlib

/-!
Shallow embedding of the emergency-department Monte Carlo snippet
(dataclass_snippet.py): an immutable parameter record and a simulator
that draws process times, admission decisions and admission delays from
a seeded pseudo-random stream, then concatenates admitted and
non-admitted total times.

The numpy RandomState is modelled as a seed plus a stream position over
an abstract entropy source: `stdExp` supplies non-negative standard
exponential variates and `unif` supplies uniform variates in [0, 1).
Each drawn sample consumes one stream position, matching the fact that
every distribution call of size n advances the generator by n samples.
numpy raises ValueError for a negative size, a negative scale, or a
probability outside [0, 1]; that validation is made explicit via
`Except NumpyError`.
-/

/-- Error raised by the numpy sampling routines on invalid parameters
(negative size, negative exponential scale, probability outside [0, 1]). -/
inductive NumpyError where
  | valueError
deriving DecidableEq

/-- Abstract entropy source backing a seeded generator: for each seed, a
stream of non-negative standard exponential variates and a stream of
uniform variates in [0, 1). -/
structure Entropy where
  unif : Nat → Nat → ℚ
  stdExp : Nat → Nat → ℚ
  unif_nonneg : ∀ s i, 0 ≤ unif s i
  unif_lt_one : ∀ s i, unif s i < 1
  stdExp_nonneg : ∀ s i, 0 ≤ stdExp s i

/-- State of a seeded numpy RandomState: the seed and the number of
samples consumed so far. -/
structure RandomState where
  seed : Nat
  pos : Nat
deriving DecidableEq

/-- RandomState.exponential(scale, size): numpy rejects a negative size
or a negative scale with ValueError; otherwise it returns size samples
scale * stdExp at consecutive stream positions and advances the state. -/
def RandomState.exponential (e : Entropy) (rs : RandomState) (scale : ℚ) (size : ℤ) :
    Except NumpyError (List ℚ) × RandomState :=
  if size < 0 ∨ scale < 0 then (Except.error NumpyError.valueError, rs)
  else
    (Except.ok ((List.range size.toNat).map fun i => scale * e.stdExp rs.seed (rs.pos + i)),
     ⟨rs.seed, rs.pos + size.toNat⟩)

/-- RandomState.binomial(nTrials, p, size): numpy rejects a negative size
or p outside [0, 1] with ValueError; otherwise sample i counts the
successes of nTrials Bernoulli(p) trials, each trial consuming one
uniform variate, and the state advances by size * nTrials samples. -/
def RandomState.binomial (e : Entropy) (rs : RandomState) (nTrials : Nat) (p : ℚ) (size : ℤ) :
    Except NumpyError (List Nat) × RandomState :=
  if size < 0 ∨ p < 0 ∨ 1 < p then (Except.error NumpyError.valueError, rs)
  else
    (Except.ok ((List.range size.toNat).map fun i =>
        (List.range nTrials).countP fun j =>
          decide (e.unif rs.seed (rs.pos + i * nTrials + j) < p)),
     ⟨rs.seed, rs.pos + size.toNat * nTrials⟩)

/-- The frozen dataclass ScenarioParameters: name, mean triage/assessment
process time, mean decision-to-admit delay, admission probability, with
the defaults of the source. -/
structure ScenarioParameters where
  name : String
  mean_process_time : ℚ := 150
  mean_dta : ℚ := 120
  p_admit : ℚ := 2 / 5
deriving DecidableEq

/-- Field selector for attribute-write attempts on ScenarioParameters. -/
inductive ScenarioField where
  | nameField
  | meanProcessTimeField
  | meanDtaField
  | pAdmitField
deriving DecidableEq

/-- Immutability error of the frozen dataclass (FrozenInstanceError in
the source; the ImmutabilityViolation condition of the design). -/
inductive FrozenInstanceError where
  | mk
deriving DecidableEq

/-- The setattr override generated by dataclass(frozen=True): every
attribute write raises FrozenInstanceError before any assignment takes
place, so the record is returned unchanged alongside the error. -/
def ScenarioParameters.setattr (s : ScenarioParameters) (_f : ScenarioField)
    (_v : String ⊕ ℚ) : Option FrozenInstanceError × ScenarioParameters :=
  (some FrozenInstanceError.mk, s)

/-- The simulator: a shared reference to the parameters and an owned
seeded generator state. -/
structure SimpleMonteCarloED where
  _params : ScenarioParameters
  _rs : RandomState
deriving DecidableEq

/-- Constructor of SimpleMonteCarloED: stores the parameter record and
initialises a fresh RandomState from the seed (stream position 0). -/
def SimpleMonteCarloED.init (params : ScenarioParameters) (random_state : Nat) :
    SimpleMonteCarloED :=
  ⟨params, ⟨random_state, 0⟩⟩

/-- simulate ed process times for n patients: exponential draw with
scale mean_process_time. -/
def SimpleMonteCarloED._simulate_ed_process_times (m : SimpleMonteCarloED) (e : Entropy)
    (n_patients : ℤ) : Except NumpyError (List ℚ) × SimpleMonteCarloED :=
  let r := RandomState.exponential e m._rs m._params.mean_process_time n_patients
  (r.1, ⟨m._params, r.2⟩)

/-- simulate admission Y/N for n patients: binomial draw with one trial
and success probability p_admit. -/
def SimpleMonteCarloED._simulate_admission (m : SimpleMonteCarloED) (e : Entropy)
    (n_patients : ℤ) : Except NumpyError (List Nat) × SimpleMonteCarloED :=
  let r := RandomState.binomial e m._rs 1 (ScenarioParameters.p_admit m._params) n_patients
  (r.1, ⟨m._params, r.2⟩)

/-- simulate admission delays for n patients: exponential draw with
scale mean_dta. -/
def SimpleMonteCarloED._simulate_dta_times (m : SimpleMonteCarloED) (e : Entropy)
    (n_patients : ℤ) : Except NumpyError (List ℚ) × SimpleMonteCarloED :=
  let r := RandomState.exponential e m._rs m._params.mean_dta n_patients
  (r.1, ⟨m._params, r.2⟩)

/-- Boolean-mask selection xs[mask == v] of numpy, for equal-length
arrays: keep the entries of xs whose mask entry equals v. -/
def maskSelect (xs : List ℚ) (mask : List Nat) (v : Nat) : List ℚ :=
  (xs.zip mask).filterMap fun pm => if pm.2 = v then some pm.1 else none

/-- Elementwise numpy addition of two equal-length arrays. -/
def addLists (xs ys : List ℚ) : List ℚ :=
  List.zipWith (fun a b => a + b) xs ys

/-- simulate: draw process times, admissions, admission delays in that
order, then return numpy append of (process + delay at admitted
indices) and (process alone at non-admitted indices).  A ValueError in
any draw propagates, leaving the state as advanced by the earlier
successful draws. -/
def SimpleMonteCarloED.simulate (m : SimpleMonteCarloED) (e : Entropy) (n_patients : ℤ) :
    Except NumpyError (List ℚ) × SimpleMonteCarloED :=
  match m._simulate_ed_process_times e n_patients with
  | (Except.error er, m1) => (Except.error er, m1)
  | (Except.ok process_times, m1) =>
    match m1._simulate_admission e n_patients with
    | (Except.error er, m2) => (Except.error er, m2)
    | (Except.ok admissions, m2) =>
      match m2._simulate_dta_times e n_patients with
      | (Except.error er, m3) => (Except.error er, m3)
      | (Except.ok admit_delays, m3) =>
        let ed_times_admit := addLists (maskSelect process_times admissions 1)
          (maskSelect admit_delays admissions 1)
        let ed_times_not_admit := maskSelect process_times admissions 0
        (Except.ok ( ed_times_admit ++ ed_times_not_admit), m3)

/-- The process-time drawn for patient i on a given simulator state:
mean_process_time times the standard exponential variate at stream
position pos + i. -/
def procDraw (e : Entropy) (m : SimpleMonteCarloED) (i : Nat) : ℚ :=
  m._params.mean_process_time * e.stdExp m._rs.seed (m._rs.pos + i)

/-- The admission decision drawn for patient i (n patients in total):
1 when the uniform variate at stream position pos + n + i is below
p_admit, else 0. -/
def admitDraw (e : Entropy) (m : SimpleMonteCarloED) (n i : Nat) : Nat :=
  if e.unif m._rs.seed (m._rs.pos + n + i) < ScenarioParameters.p_admit m._params then 1 else 0

/-- The admission delay drawn for patient i (n patients in total):
mean_dta times the standard exponential variate at stream position
pos + 2 n + i. -/
def delayDraw (e : Entropy) (m : SimpleMonteCarloED) (n i : Nat) : ℚ :=
  m._params.mean_dta * e.stdExp m._rs.seed (m._rs.pos + n + n + i)

/-- Specification-side result shape: total times of admitted patients in
index order (process plus delay) followed by total times of non-admitted
patients in index order (process alone, delay discarded). -/
def specTotalTimes (proc delay : Nat → ℚ) (adm : Nat → Nat) (n : Nat) : List ℚ :=
  ((List.range n).filterMap fun i => if adm i = 1 then some (proc i + delay i) else none)
    ++ ((List.range n).filterMap fun i => if adm i = 0 then some (proc i) else none)

/-- A concrete entropy source used to instantiate hypotheses on concrete
inputs: uniform stream constantly one half, exponential stream equal to
the position index. -/
def testEntropy : Entropy where
  unif := fun _ _ => 1 / 2
  stdExp := fun _ i => (i : ℚ)
  unif_nonneg := fun _ _ => by norm_num
  unif_lt_one := fun _ _ => by norm_num
  stdExp_nonneg := fun _ i => by positivity

/-- Concrete simulator used to instantiate hypotheses: every parameter
set to 1 (so every patient is admitted under testEntropy), seed 0. -/
def mA : SimpleMonteCarloED := SimpleMonteCarloED.init ⟨"a", 1, 1, 1⟩ 0

/-- Concrete simulator with an out-of-range admission probability. -/
def mBad : SimpleMonteCarloED := SimpleMonteCarloED.init ⟨"x", 1, 1, 5⟩ 0

/-- Concrete simulator whose mean process time is zero, a non-positive
mean that the code accepts silently. -/
def mZero : SimpleMonteCarloED := SimpleMonteCarloED.init ⟨"x", 0, 120, 2 / 5⟩ 909

theorem exponential_err (e : Entropy) (rs : RandomState) (scale : ℚ) (size : ℤ)
    (h : size < 0 ∨ scale < 0) :
    RandomState.exponential e rs scale size = (Except.error NumpyError.valueError, rs) := by
  unfold RandomState.exponential
  rw [if_pos h]

theorem exponential_ok (e : Entropy) (rs : RandomState) (scale : ℚ) (size : ℤ)
    (h1 : 0 ≤ size) (h2 : 0 ≤ scale) :
    RandomState.exponential e rs scale size =
      (Except.ok ((List.range size.toNat).map fun i => scale * e.stdExp rs.seed (rs.pos + i)),
       ⟨rs.seed, rs.pos + size.toNat⟩) := by
  have h : ¬(size < 0 ∨ scale < 0) := by
    push_neg
    exact ⟨h1, h2⟩
  unfold RandomState.exponential
  rw [if_neg h]

theorem binomial_err (e : Entropy) (rs : RandomState) (nTrials : Nat) (p : ℚ) (size : ℤ)
    (h : size < 0 ∨ p < 0 ∨ 1 < p) :
    RandomState.binomial e rs nTrials p size = (Except.error NumpyError.valueError, rs) := by
  unfold RandomState.binomial
  rw [if_pos h]

theorem binomial_one_ok (e : Entropy) (rs : RandomState) (p : ℚ) (size : ℤ)
    (h1 : 0 ≤ size) (h2 : 0 ≤ p) (h3 : p ≤ 1) :
    RandomState.binomial e rs 1 p size =
      (Except.ok ((List.range size.toNat).map fun i =>
          if e.unif rs.seed (rs.pos + i) < p then 1 else 0),
       ⟨rs.seed, rs.pos + size.toNat⟩) := by
  have h : ¬(size < 0 ∨ p < 0 ∨ 1 < p) := by
    push_neg
    exact ⟨h1, h2, h3⟩
  unfold RandomState.binomial
  rw [if_neg h]
  have hmap : (fun i => (List.range 1).countP fun j =>
      decide (e.unif rs.seed (rs.pos + i * 1 + j) < p)) =
      fun i => if e.unif rs.seed (rs.pos + i) < p then (1:Nat) else 0 := by
    funext i
    have h0 : List.range 1 = [0] := rfl
    simp [h0, List.countP_cons]
  rw [hmap, Nat.mul_one]

theorem proc_times_ok (e : Entropy) (m : SimpleMonteCarloED) (n : ℤ) (hn : 0 ≤ n)
    (h2 : 0 ≤ m._params.mean_process_time) :
    m._simulate_ed_process_times e n =
      (Except.ok ((List.range n.toNat).map (procDraw e m)),
       ⟨m._params, ⟨m._rs.seed, m._rs.pos + n.toNat⟩⟩) := by
  unfold SimpleMonteCarloED._simulate_ed_process_times
  rw [exponential_ok e m._rs m._params.mean_process_time n hn h2]
  rfl

theorem admission_ok (e : Entropy) (m : SimpleMonteCarloED) (n : ℤ) (hn : 0 ≤ n)
    (h2 : 0 ≤ ScenarioParameters.p_admit m._params)
    (h3 : ScenarioParameters.p_admit m._params ≤ 1) :
    m._simulate_admission e n =
      (Except.ok ((List.range n.toNat).map fun i =>
          if e.unif m._rs.seed (m._rs.pos + i) < ScenarioParameters.p_admit m._params
          then 1 else 0),
       ⟨m._params, ⟨m._rs.seed, m._rs.pos + n.toNat⟩⟩) := by
  unfold SimpleMonteCarloED._simulate_admission
  rw [binomial_one_ok e m._rs (ScenarioParameters.p_admit m._params) n hn h2 h3]

theorem dta_times_ok (e : Entropy) (m : SimpleMonteCarloED) (n : ℤ) (hn : 0 ≤ n)
    (h2 : 0 ≤ m._params.mean_dta) :
    m._simulate_dta_times e n =
      (Except.ok ((List.range n.toNat).map fun i =>
          m._params.mean_dta * e.stdExp m._rs.seed (m._rs.pos + i)),
       ⟨m._params, ⟨m._rs.seed, m._rs.pos + n.toNat⟩⟩) := by
  unfold SimpleMonteCarloED._simulate_dta_times
  rw [exponential_ok e m._rs m._params.mean_dta n hn h2]

theorem proc_times_err (e : Entropy) (m : SimpleMonteCarloED) (n : ℤ)
    (h : n < 0 ∨ m._params.mean_process_time < 0) :
    m._simulate_ed_process_times e n = (Except.error NumpyError.valueError, m) := by
  unfold SimpleMonteCarloED._simulate_ed_process_times
  rw [exponential_err e m._rs m._params.mean_process_time n h]

theorem admission_err (e : Entropy) (m : SimpleMonteCarloED) (n : ℤ)
    (h : n < 0 ∨ ScenarioParameters.p_admit m._params < 0
      ∨ 1 < ScenarioParameters.p_admit m._params) :
    m._simulate_admission e n = (Except.error NumpyError.valueError, m) := by
  unfold SimpleMonteCarloED._simulate_admission
  rw [binomial_err e m._rs 1 (ScenarioParameters.p_admit m._params) n h]

theorem dta_times_err (e : Entropy) (m : SimpleMonteCarloED) (n : ℤ)
    (h : n < 0 ∨ m._params.mean_dta < 0) :
    m._simulate_dta_times e n = (Except.error NumpyError.valueError, m) := by
  unfold SimpleMonteCarloED._simulate_dta_times
  rw [exponential_err e m._rs m._params.mean_dta n h]

theorem maskSelect_map (l : List Nat) (f : Nat → ℚ) (a : Nat → Nat) (v : Nat) :
    maskSelect (l.map f) (l.map a) v
      = l.filterMap fun i => if a i = v then some (f i) else none := by
  induction l with
  | nil => rfl
  | cons x xs ih =>
    by_cases h : a x = v <;>
      simp only [maskSelect, List.map_cons, List.zip_cons_cons, List.filterMap_cons, h,
        if_true, if_false, ite_true, ite_false] <;>
      simp only [maskSelect] at ih <;>
      simp [h, ih]

theorem addLists_cons (x y : ℚ) (xs ys : List ℚ) :
    addLists (x :: xs) (y :: ys) = (x + y) :: addLists xs ys := rfl

theorem addLists_filterMap (l : List Nat) (f g : Nat → ℚ) (a : Nat → Nat) (v : Nat) :
    addLists (l.filterMap fun i => if a i = v then some (f i) else none)
        (l.filterMap fun i => if a i = v then some (g i) else none)
      = l.filterMap fun i => if a i = v then some (f i + g i) else none := by
  induction l with
  | nil => rfl
  | cons x xs ih =>
    by_cases h : a x = v <;> simp [List.filterMap_cons, h, addLists_cons, ih]

theorem simulate_ok (e : Entropy) (m : SimpleMonteCarloED) (n : ℤ) (hn : 0 ≤ n)
    (h1 : 0 ≤ m._params.mean_process_time)
    (h2 : 0 ≤ ScenarioParameters.p_admit m._params)
    (h3 : ScenarioParameters.p_admit m._params ≤ 1)
    (h4 : 0 ≤ m._params.mean_dta) :
    m.simulate e n =
      (Except.ok (specTotalTimes (procDraw e m) (delayDraw e m n.toNat)
          (admitDraw e m n.toNat) n.toNat),
       ⟨m._params, ⟨m._rs.seed, m._rs.pos + n.toNat + n.toNat + n.toNat⟩⟩) := by
  unfold SimpleMonteCarloED.simulate
  rw [proc_times_ok e m n hn h1]
  dsimp only
  rw [admission_ok e ⟨m._params, ⟨m._rs.seed, m._rs.pos + n.toNat⟩⟩ n hn h2 h3]
  dsimp only
  rw [dta_times_ok e ⟨m._params, ⟨m._rs.seed, m._rs.pos + n.toNat + n.toNat⟩⟩ n hn h4]
  dsimp only
  unfold specTotalTimes
  rw [maskSelect_map, maskSelect_map, maskSelect_map, addLists_filterMap]
  rfl

theorem simulate_err (e : Entropy) (m : SimpleMonteCarloED) (n : ℤ)
    (h : n < 0 ∨ m._params.mean_process_time < 0
      ∨ ScenarioParameters.p_admit m._params < 0
      ∨ 1 < ScenarioParameters.p_admit m._params
      ∨ m._params.mean_dta < 0) :
    (m.simulate e n).1 = Except.error NumpyError.valueError := by
  by_cases hA : n < 0 ∨ m._params.mean_process_time < 0
  · unfold SimpleMonteCarloED.simulate
    rw [proc_times_err e m n hA]
  · push_neg at hA
    obtain ⟨hn, hmpt⟩ := hA
    by_cases hB : ScenarioParameters.p_admit m._params < 0
      ∨ 1 < ScenarioParameters.p_admit m._params
    · unfold SimpleMonteCarloED.simulate
      rw [proc_times_ok e m n hn hmpt]
      dsimp only
      rw [admission_err e ⟨m._params, ⟨m._rs.seed, m._rs.pos + n.toNat⟩⟩ n (Or.inr hB)]
    · push_neg at hB
      obtain ⟨hp0, hp1⟩ := hB
      have hdta : m._params.mean_dta < 0 := by
        rcases h with h | h | h | h | h
        · exact absurd h (not_lt.mpr hn)
        · exact absurd h (not_lt.mpr hmpt)
        · exact absurd h (not_lt.mpr hp0)
        · exact absurd h (not_lt.mpr hp1)
        · exact h
      unfold SimpleMonteCarloED.simulate
      rw [proc_times_ok e m n hn hmpt]
      dsimp only
      rw [admission_ok e ⟨m._params, ⟨m._rs.seed, m._rs.pos + n.toNat⟩⟩ n hn hp0 hp1]
      dsimp only
      rw [dta_times_err e ⟨m._params, ⟨m._rs.seed, m._rs.pos + n.toNat + n.toNat⟩⟩ n
        (Or.inr hdta)]

theorem simulate_state (e : Entropy) (m : SimpleMonteCarloED) (n : ℤ) :
    ((m.simulate e n).2)._params = m._params
      ∧ ((m.simulate e n).2)._rs.seed = m._rs.seed := by
  by_cases hA : n < 0 ∨ m._params.mean_process_time < 0
  · unfold SimpleMonteCarloED.simulate
    rw [proc_times_err e m n hA]
    exact ⟨rfl, rfl⟩
  · push_neg at hA
    obtain ⟨hn, hmpt⟩ := hA
    by_cases hB : ScenarioParameters.p_admit m._params < 0
      ∨ 1 < ScenarioParameters.p_admit m._params
    · unfold SimpleMonteCarloED.simulate
      rw [proc_times_ok e m n hn hmpt]
      dsimp only
      rw [admission_err e ⟨m._params, ⟨m._rs.seed, m._rs.pos + n.toNat⟩⟩ n (Or.inr hB)]
      exact ⟨rfl, rfl⟩
    · push_neg at hB
      obtain ⟨hp0, hp1⟩ := hB
      by_cases hC : m._params.mean_dta < 0
      · unfold SimpleMonteCarloED.simulate
        rw [proc_times_ok e m n hn hmpt]
        dsimp only
        rw [admission_ok e ⟨m._params, ⟨m._rs.seed, m._rs.pos + n.toNat⟩⟩ n hn hp0 hp1]
        dsimp only
        rw [dta_times_err e ⟨m._params, ⟨m._rs.seed, m._rs.pos + n.toNat + n.toNat⟩⟩ n
          (Or.inr hC)]
        exact ⟨rfl, rfl⟩
      · push_neg at hC
        rw [simulate_ok e m n hn hmpt hp0 hp1 hC]
        exact ⟨rfl, rfl⟩

theorem simulate_ok_params (e : Entropy) (m : SimpleMonteCarloED) (n : ℤ) (xs : List ℚ)
    (h : (m.simulate e n).1 = Except.ok xs) :
    0 ≤ n ∧ 0 ≤ m._params.mean_process_time
      ∧ 0 ≤ ScenarioParameters.p_admit m._params
      ∧ ScenarioParameters.p_admit m._params ≤ 1
      ∧ 0 ≤ m._params.mean_dta := by
  have key : ¬(n < 0 ∨ m._params.mean_process_time < 0
      ∨ ScenarioParameters.p_admit m._params < 0
      ∨ 1 < ScenarioParameters.p_admit m._params
      ∨ m._params.mean_dta < 0) := by
    intro hbad
    rw [simulate_err e m n hbad] at h
    simp at h
  push_neg at key
  obtain ⟨k1, k2, k3, k4, k5⟩ := key
  exact ⟨not_lt.mp (by simpa using k1), not_lt.mp (by simpa using k2),
    not_lt.mp (by simpa using k3), not_lt.mp (by simpa using k4),
    not_lt.mp (by simpa using k5)⟩

theorem filterMap_guard_length (l : List Nat) (f g : Nat → ℚ) (a : Nat → Nat)
    (h : ∀ i ∈ l, a i = 0 ∨ a i = 1) :
    ((l.filterMap fun i => if a i = 1 then some (f i + g i) else none).length
      + (l.filterMap fun i => if a i = 0 then some (f i) else none).length) = l.length := by
  induction l with
  | nil => rfl
  | cons x xs ih =>
    have hx := h x (List.mem_cons_self x xs)
    have ih2 := ih fun i hi => h i (List.mem_cons_of_mem x hi)
    rcases hx with hx | hx <;> simp [List.filterMap_cons, hx] <;> omega

theorem specTotalTimes_length (f g : Nat → ℚ) (a : Nat → Nat) (n : Nat)
    (h : ∀ i, a i = 0 ∨ a i = 1) :
    (specTotalTimes f g a n).length = n := by
  unfold specTotalTimes
  rw [List.length_append, filterMap_guard_length (List.range n) f g a fun i _ => h i]
  exact List.length_range n

theorem specTotalTimes_nonneg (f g : Nat → ℚ) (a : Nat → Nat) (n : Nat)
    (hf : ∀ i, 0 ≤ f i) (hg : ∀ i, 0 ≤ g i) :
    ∀ x ∈ specTotalTimes f g a n, 0 ≤ x := by
  intro x hx
  unfold specTotalTimes at hx
  rcases List.mem_append.mp hx with hx | hx
  · obtain ⟨i, _, hi⟩ := List.mem_filterMap.mp hx
    by_cases h1 : a i = 1
    · rw [if_pos h1] at hi
      obtain rfl : f i + g i = x := Option.some.inj hi
      exact add_nonneg (hf i) (hg i)
    · rw [if_neg h1] at hi
      cases hi
  · obtain ⟨i, _, hi⟩ := List.mem_filterMap.mp hx
    by_cases h0 : a i = 0
    · rw [if_pos h0] at hi
      obtain rfl : f i = x := Option.some.inj hi
      exact hf i
    · rw [if_neg h0] at hi
      cases hi

theorem filterMap_ext_mem {α β : Type} (l : List α) (f g : α → Option β)
    (h : ∀ x ∈ l, f x = g x) : l.filterMap f = l.filterMap g := by
  induction l with
  | nil => rfl
  | cons x xs ih =>
    rw [List.filterMap_cons, List.filterMap_cons, h x (List.mem_cons_self x xs),
      ih fun y hy => h y (List.mem_cons_of_mem x hy)]

theorem admitDraw_cases (e : Entropy) (m : SimpleMonteCarloED) (n i : Nat) :
    admitDraw e m n i = 0 ∨ admitDraw e m n i = 1 := by
  unfold admitDraw
  split
  · exact Or.inr rfl
  · exact Or.inl rfl

theorem countP_binary (l : List Nat) (h : ∀ x ∈ l, x = 0 ∨ x = 1) :
    (l.countP fun x => decide (x = 1)) + (l.countP fun x => decide (x = 0)) = l.length := by
  induction l with
  | nil => rfl
  | cons x xs ih =>
    have hx := h x (List.mem_cons_self x xs)
    have ih2 := ih fun y hy => h y (List.mem_cons_of_mem x hy)
    rcases hx with hx | hx <;> simp [List.countP_cons, hx] <;> omega

theorem simulate_length_toNat (e : Entropy) (m : SimpleMonteCarloED) (n : ℤ) (xs : List ℚ)
    (h : (m.simulate e n).1 = Except.ok xs) : xs.length = n.toNat := by
  obtain ⟨hn, h1, h2, h3, h4⟩ := simulate_ok_params e m n xs h
  rw [simulate_ok e m n hn h1 h2 h3 h4] at h
  have hxs : specTotalTimes (procDraw e m) (delayDraw e m n.toNat)
      (admitDraw e m n.toNat) n.toNat = xs := by simpa using h
  rw [← hxs]
  exact specTotalTimes_length _ _ _ _ fun i => admitDraw_cases e m n.toNat i

/-- Claim C2: for every non-negative n and every configuration, a
sequence returned by simulate(n) has length exactly n. -/
theorem simulate_length_eq (e : Entropy) (m : SimpleMonteCarloED) (n : ℤ) (xs : List ℚ)
    (hn : 0 ≤ n) (h : (m.simulate e n).1 = Except.ok xs) : (xs.length : ℤ) = n := by
  rw [simulate_length_toNat e m n xs h]
  exact Int.toNat_of_nonneg hn

/-- Claim C5: every attribute write on a constructed ScenarioParameters
raises the immutability error and leaves every field value unchanged. -/
theorem scenario_setattr_immutable (s : ScenarioParameters) (f : ScenarioField)
    (v : String ⊕ ℚ) :
    (ScenarioParameters.setattr s f v).1 = some FrozenInstanceError.mk
      ∧ (ScenarioParameters.setattr s f v).2 = s
      ∧ (ScenarioParameters.setattr s f v).2.name = s.name
      ∧ (ScenarioParameters.setattr s f v).2.mean_process_time = s.mean_process_time
      ∧ (ScenarioParameters.setattr s f v).2.mean_dta = s.mean_dta
      ∧ ScenarioParameters.p_admit (ScenarioParameters.setattr s f v).2
          = ScenarioParameters.p_admit s :=
  ⟨rfl, rfl, rfl, rfl, rfl, rfl⟩

/-- Claim C8: simulate leaves the shared configuration and every one of
its fields unchanged and does not reseed the generator; only the stream
position of its own generator state advances. -/
theorem simulate_config_frame (e : Entropy) (m : SimpleMonteCarloED) (n : ℤ) :
    ((m.simulate e n).2)._params = m._params
      ∧ ((m.simulate e n).2)._params.name = m._params.name
      ∧ ((m.simulate e n).2)._params.mean_process_time = m._params.mean_process_time
      ∧ ((m.simulate e n).2)._params.mean_dta = m._params.mean_dta
      ∧ ScenarioParameters.p_admit ((m.simulate e n).2)._params
          = ScenarioParameters.p_admit m._params
      ∧ ((m.simulate e n).2)._rs.seed = m._rs.seed := by
  obtain ⟨hp, hs⟩ := simulate_state e m n
  exact ⟨hp, by rw [hp], by rw [hp], by rw [hp], by rw [hp], hs⟩

/-- Claim C3: two independently constructed simulators with the same
configuration and seed produce identical results for one simulate call
each. -/
theorem simulate_two_run_deterministic (e : Entropy) (c : ScenarioParameters) (s : Nat)
    (n : ℤ) (m1 m2 : SimpleMonteCarloED)
    (h1 : m1 = SimpleMonteCarloED.init c s) (h2 : m2 = SimpleMonteCarloED.init c s) :
    m1.simulate e n = m2.simulate e n := by
  rw [h1, h2]

/-- Claim C6 (amended): a negative n_patients, a negative configured
mean, or p_admit outside [0, 1] makes simulate fail with the library
ValueError raised inside the first draw routine that receives the
invalid parameter, producing no output. -/
theorem simulate_error_of_invalid_params (e : Entropy) (m : SimpleMonteCarloED) (n : ℤ)
    (h : n < 0 ∨ m._params.mean_process_time < 0
      ∨ ScenarioParameters.p_admit m._params < 0
      ∨ 1 < ScenarioParameters.p_admit m._params
      ∨ m._params.mean_dta < 0) :
    (m.simulate e n).1 = Except.error NumpyError.valueError :=
  simulate_err e m n h

/-- Claim C4: with a valid configuration (positive means, p_admit in
[0, 1]) and non-negative n, every value simulate returns is
non-negative. -/
theorem simulate_output_nonneg (e : Entropy) (m : SimpleMonteCarloED) (n : ℤ) (xs : List ℚ)
    (hn : 0 ≤ n) (hmpt : 0 < m._params.mean_process_time)
    (hdta : 0 < m._params.mean_dta)
    (hp0 : 0 ≤ ScenarioParameters.p_admit m._params)
    (hp1 : ScenarioParameters.p_admit m._params ≤ 1)
    (h : (m.simulate e n).1 = Except.ok xs) :
    ∀ x ∈ xs, 0 ≤ x := by
  rw [simulate_ok e m n hn (le_of_lt hmpt) hp0 hp1 (le_of_lt hdta)] at h
  have hxs : specTotalTimes (procDraw e m) (delayDraw e m n.toNat)
      (admitDraw e m n.toNat) n.toNat = xs := by simpa using h
  rw [← hxs]
  refine specTotalTimes_nonneg _ _ _ _ (fun i => ?_) fun i => ?_
  · exact mul_nonneg (le_of_lt hmpt) (e.stdExp_nonneg _ _)
  · exact mul_nonneg (le_of_lt hdta) (e.stdExp_nonneg _ _)

/-- Claim C9 (amended): with non-negative configured means and p_admit
in [0, 1], simulate(0) returns the empty sequence without error and
without advancing the generator position. -/
theorem simulate_zero_empty_ok (e : Entropy) (m : SimpleMonteCarloED)
    (h1 : 0 ≤ m._params.mean_process_time)
    (h2 : 0 ≤ ScenarioParameters.p_admit m._params)
    (h3 : ScenarioParameters.p_admit m._params ≤ 1)
    (h4 : 0 ≤ m._params.mean_dta) :
    (m.simulate e 0).1 = Except.ok [] ∧ ((m.simulate e 0).2)._rs.pos = m._rs.pos := by
  rw [simulate_ok e m 0 le_rfl h1 h2 h3 h4]
  exact ⟨rfl, rfl⟩

/-- Claim C7: the three draws happen in the fixed order process times,
admissions, admission delays, consuming three consecutive blocks of n
stream samples each, so the generator always advances by exactly 3 n
samples whatever the admission outcomes, and the draw sequences are
functions of the seed, position and n alone. -/
theorem simulate_draw_order_counts (e : Entropy) (m : SimpleMonteCarloED) (n : ℤ)
    (hn : 0 ≤ n) (h1 : 0 ≤ m._params.mean_process_time)
    (h2 : 0 ≤ ScenarioParameters.p_admit m._params)
    (h3 : ScenarioParameters.p_admit m._params ≤ 1)
    (h4 : 0 ≤ m._params.mean_dta) :
    (m._simulate_ed_process_times e n =
        (Except.ok ((List.range n.toNat).map (procDraw e m)),
         ⟨m._params, ⟨m._rs.seed, m._rs.pos + n.toNat⟩⟩))
      ∧ (((m._simulate_ed_process_times e n).2)._simulate_admission e n =
        (Except.ok ((List.range n.toNat).map (admitDraw e m n.toNat)),
         ⟨m._params, ⟨m._rs.seed, m._rs.pos + n.toNat + n.toNat⟩⟩))
      ∧ ((((m._simulate_ed_process_times e n).2)._simulate_admission e n).2._simulate_dta_times
          e n =
        (Except.ok ((List.range n.toNat).map (delayDraw e m n.toNat)),
         ⟨m._params, ⟨m._rs.seed, m._rs.pos + n.toNat + n.toNat + n.toNat⟩⟩))
      ∧ ∀ e2 : Entropy, ((m.simulate e2 n).2)._rs.pos = m._rs.pos + 3 * n.toNat := by
  refine ⟨proc_times_ok e m n hn h1, ?_, ?_, fun e2 => ?_⟩
  · rw [proc_times_ok e m n hn h1]
    rw [admission_ok e ⟨m._params, ⟨m._rs.seed, m._rs.pos + n.toNat⟩⟩ n hn h2 h3]
    rfl
  · rw [proc_times_ok e m n hn h1]
    rw [admission_ok e ⟨m._params, ⟨m._rs.seed, m._rs.pos + n.toNat⟩⟩ n hn h2 h3]
    rw [dta_times_ok e ⟨m._params, ⟨m._rs.seed, m._rs.pos + n.toNat + n.toNat⟩⟩ n hn h4]
    rfl
  · rw [simulate_ok e2 m n hn h1 h2 h3 h4]
    show m._rs.pos + n.toNat + n.toNat + n.toNat = m._rs.pos + 3 * n.toNat
    omega

/-- Claim C10: the admission draw yields only the values 0 and 1, the
two selection masks are disjoint and cover every index, and each patient
contributes exactly one entry to the output of simulate. -/
theorem admissions_binary_partition (e : Entropy) (m : SimpleMonteCarloED) (n : ℤ)
    (hn : 0 ≤ n) (hp0 : 0 ≤ ScenarioParameters.p_admit m._params)
    (hp1 : ScenarioParameters.p_admit m._params ≤ 1) :
    ((m._simulate_admission e n).1
        = Except.ok ((List.range n.toNat).map fun i =>
            if e.unif m._rs.seed (m._rs.pos + i) < ScenarioParameters.p_admit m._params
            then 1 else 0))
      ∧ (∀ l : List Nat, (m._simulate_admission e n).1 = Except.ok l →
          (∀ x ∈ l, x = 0 ∨ x = 1)
            ∧ (l.countP fun x => decide (x = 1)) + (l.countP fun x => decide (x = 0))
                = l.length)
      ∧ ∀ xs : List ℚ, (m.simulate e n).1 = Except.ok xs → xs.length = n.toNat := by
  refine ⟨?_, fun l hl => ⟨?_, ?_⟩, fun xs hxs => simulate_length_toNat e m n xs hxs⟩
  · rw [admission_ok e m n hn hp0 hp1]
  · rw [admission_ok e m n hn hp0 hp1] at hl
    have hl2 : (List.range n.toNat).map (fun i =>
        if e.unif m._rs.seed (m._rs.pos + i) < ScenarioParameters.p_admit m._params
        then 1 else 0) = l := by simpa using hl
    intro x hx
    rw [← hl2] at hx
    obtain ⟨i, _, hi⟩ := List.mem_map.mp hx
    rw [← hi]
    split
    · exact Or.inr rfl
    · exact Or.inl rfl
  · rw [admission_ok e m n hn hp0 hp1] at hl
    have hl2 : (List.range n.toNat).map (fun i =>
        if e.unif m._rs.seed (m._rs.pos + i) < ScenarioParameters.p_admit m._params
        then 1 else 0) = l := by simpa using hl
    refine countP_binary l fun x hx => ?_
    rw [← hl2] at hx
    obtain ⟨i, _, hi⟩ := List.mem_map.mp hx
    rw [← hi]
    split
    · exact Or.inr rfl
    · exact Or.inl rfl

/-- Claim C1: a returned sequence is the total times of the admitted
patients (process plus delay, in index order) followed by the total
times of the non-admitted patients (process alone, in index order), and
the delay draws at non-admitted indices have no influence on the
output: any entropy source agreeing on the uniform stream, on the
process-time block and on the delay positions of admitted patients
yields the same output. -/
theorem simulate_partition_concat (e : Entropy) (m : SimpleMonteCarloED) (n : ℤ)
    (xs : List ℚ) (_hn : 1 ≤ n) (h : (m.simulate e n).1 = Except.ok xs) :
    xs = specTotalTimes (procDraw e m) (delayDraw e m n.toNat) (admitDraw e m n.toNat) n.toNat
      ∧ ∀ e2 : Entropy,
          (∀ i, e2.unif m._rs.seed i = e.unif m._rs.seed i) →
          (∀ i, i < n.toNat →
            e2.stdExp m._rs.seed (m._rs.pos + i) = e.stdExp m._rs.seed (m._rs.pos + i)) →
          (∀ i, i < n.toNat → admitDraw e m n.toNat i = 1 →
            e2.stdExp m._rs.seed (m._rs.pos + n.toNat + n.toNat + i)
              = e.stdExp m._rs.seed (m._rs.pos + n.toNat + n.toNat + i)) →
          (m.simulate e2 n).1 = Except.ok xs := by
  obtain ⟨hn0, h1, h2, h3, h4⟩ := simulate_ok_params e m n xs h
  rw [simulate_ok e m n hn0 h1 h2 h3 h4] at h
  have hxs : specTotalTimes (procDraw e m) (delayDraw e m n.toNat)
      (admitDraw e m n.toNat) n.toNat = xs := by simpa using h
  refine ⟨hxs.symm, fun e2 hu hp hd => ?_⟩
  rw [simulate_ok e2 m n hn0 h1 h2 h3 h4]
  show Except.ok _ = Except.ok xs
  rw [← hxs]
  have hadm : ∀ i, admitDraw e2 m n.toNat i = admitDraw e m n.toNat i := by
    intro i
    unfold admitDraw
    rw [hu (m._rs.pos + n.toNat + i)]
  refine congrArg Except.ok ?_
  unfold specTotalTimes
  refine congrArg₂ (fun a b => a ++ b) ?_ ?_
  · refine filterMap_ext_mem _ _ _ fun i hi => ?_
    have hi2 : i < n.toNat := List.mem_range.mp hi
    rw [hadm i]
    by_cases hA : admitDraw e m n.toNat i = 1
    · rw [if_pos hA, if_pos hA]
      have hpr : procDraw e2 m i = procDraw e m i := by
        unfold procDraw
        rw [hp i hi2]
      have hde : delayDraw e2 m n.toNat i = delayDraw e m n.toNat i := by
        unfold delayDraw
        rw [hd i hi2 hA]
      rw [hpr, hde]
    · rw [if_neg hA, if_neg hA]
  · refine filterMap_ext_mem _ _ _ fun i hi => ?_
    have hi2 : i < n.toNat := List.mem_range.mp hi
    rw [hadm i]
    by_cases hA : admitDraw e m n.toNat i = 0
    · rw [if_pos hA, if_pos hA]
      unfold procDraw
      rw [hp i hi2]
    · rw [if_neg hA, if_neg hA]

theorem mA_params_mpt : mA._params.mean_process_time = 1 := rfl

theorem mA_params_dta : mA._params.mean_dta = 1 := rfl

theorem mA_params_p : ScenarioParameters.p_admit mA._params = 1 := rfl

theorem mA_simulate_one : (mA.simulate testEntropy 1).1 = Except.ok [2] := by
  rw [simulate_ok testEntropy mA 1 (by decide) (by rw [mA_params_mpt]; norm_num)
    (by rw [mA_params_p]; norm_num) (by rw [mA_params_p]) (by rw [mA_params_dta]; norm_num)]
  show Except.ok _ = Except.ok _
  refine congrArg Except.ok ?_
  norm_num [specTotalTimes, procDraw, delayDraw, admitDraw, mA, SimpleMonteCarloED.init,
    testEntropy, List.range_succ, List.filterMap_cons]

theorem mBad_params_mpt : mBad._params.mean_process_time = 1 := rfl

theorem mBad_params_p : ScenarioParameters.p_admit mBad._params = 5 := rfl

theorem mZero_params_mpt : mZero._params.mean_process_time = 0 := rfl

theorem mZero_params_dta : mZero._params.mean_dta = 120 := rfl

theorem mZero_params_p : ScenarioParameters.p_admit mZero._params = 2 / 5 := rfl

/-- Claim C6 counterexample: with mean_process_time = 0 (a non-positive
configured mean) simulate raises nothing and returns an output, and with
p_admit = 5 the rejection happens only after the process-time draw has
already consumed generator state, not at the boundary of simulate. -/
theorem simulate_invalid_params_counterexample :
    ((mZero.simulate testEntropy 1).1 = Except.ok [0])
      ∧ ((mBad.simulate testEntropy 2).2)._rs.pos = 2 := by
  constructor
  · rw [simulate_ok testEntropy mZero 1 (by decide) (by rw [mZero_params_mpt])
      (by rw [mZero_params_p]; norm_num) (by rw [mZero_params_p]; norm_num)
      (by rw [mZero_params_dta]; norm_num)]
    show Except.ok _ = Except.ok _
    refine congrArg Except.ok ?_
    norm_num [specTotalTimes, procDraw, delayDraw, admitDraw, mZero,
      SimpleMonteCarloED.init, testEntropy, List.range_succ, List.filterMap_cons]
  · unfold SimpleMonteCarloED.simulate
    rw [proc_times_ok testEntropy mBad 2 (by decide) (by rw [mBad_params_mpt]; norm_num)]
    dsimp only
    rw [admission_err testEntropy ⟨mBad._params, ⟨mBad._rs.seed, mBad._rs.pos + (2:ℤ).toNat⟩⟩
      2 (Or.inr (Or.inr (by rw [show ScenarioParameters.p_admit
        (⟨mBad._params, ⟨mBad._rs.seed, mBad._rs.pos + (2:ℤ).toNat⟩⟩ :
          SimpleMonteCarloED)._params = 5 from rfl]; norm_num)))]
    rfl

/-- Claim C9 counterexample: with a negative configured mean the zero
patient call does not return an empty sequence; the scale check of the
exponential draw raises ValueError even for a zero-length draw. -/
theorem simulate_zero_negmean_counterexample :
    ((SimpleMonteCarloED.init ⟨"x", -1, 120, 2 / 5⟩ 909).simulate testEntropy 0).1
      = Except.error NumpyError.valueError :=
  simulate_err testEntropy _ 0 (Or.inr (Or.inl (by norm_num [SimpleMonteCarloED.init])))

/-- Witness for C1 at a concrete input: with every parameter 1 and the
test entropy, one patient is admitted and the output [2] equals the
specification-side concatenation. -/
theorem simulate_partition_concat_witness :
    [(2:ℚ)] = specTotalTimes (procDraw testEntropy mA) (delayDraw testEntropy mA (1:ℤ).toNat)
      (admitDraw testEntropy mA (1:ℤ).toNat) (1:ℤ).toNat :=
  (simulate_partition_concat testEntropy mA 1 [2] (by decide) mA_simulate_one).1

/-- Witness for C2 at a concrete input. -/
theorem simulate_length_eq_witness : (([(2:ℚ)].length : ℤ)) = 1 :=
  simulate_length_eq testEntropy mA 1 [2] (by decide) mA_simulate_one

/-- Witness for C3 at a concrete input. -/
theorem simulate_two_run_deterministic_witness :
    mA.simulate testEntropy 1 = mA.simulate testEntropy 1 :=
  simulate_two_run_deterministic testEntropy ⟨"a", 1, 1, 1⟩ 0 1 mA mA rfl rfl

/-- Witness for C4 at a concrete input: the single output value 2 of the
concrete run is non-negative. -/
theorem simulate_output_nonneg_witness : (0:ℚ) ≤ 2 :=
  simulate_output_nonneg testEntropy mA 1 [2] (by decide)
    (by rw [mA_params_mpt]; norm_num) (by rw [mA_params_dta]; norm_num)
    (by rw [mA_params_p]; norm_num) (by rw [mA_params_p]) mA_simulate_one 2
    (List.mem_singleton.mpr rfl)

/-- Witness for the amended C6 at a concrete input: a negative
n_patients yields the ValueError. -/
theorem simulate_error_of_invalid_params_witness :
    (mA.simulate testEntropy (-1)).1 = Except.error NumpyError.valueError :=
  simulate_error_of_invalid_params testEntropy mA (-1) (Or.inl (by decide))

/-- Witness for C7 at a concrete input: the generator advances by
exactly three blocks of one sample. -/
theorem simulate_draw_order_counts_witness :
    ((mA.simulate testEntropy 1).2)._rs.pos = mA._rs.pos + 3 * (1:ℤ).toNat :=
  (simulate_draw_order_counts testEntropy mA 1 (by decide)
    (by rw [mA_params_mpt]; norm_num) (by rw [mA_params_p]; norm_num)
    (by rw [mA_params_p]) (by rw [mA_params_dta]; norm_num)).2.2.2 testEntropy

/-- Witness for the amended C9 at a concrete input. -/
theorem simulate_zero_empty_ok_witness :
    (mA.simulate testEntropy 0).1 = Except.ok []
      ∧ ((mA.simulate testEntropy 0).2)._rs.pos = mA._rs.pos :=
  simulate_zero_empty_ok testEntropy mA (by rw [mA_params_mpt]; norm_num)
    (by rw [mA_params_p]; norm_num) (by rw [mA_params_p]) (by rw [mA_params_dta]; norm_num)

theorem mA_admission_one : (mA._simulate_admission testEntropy 1).1 = Except.ok [1] := by
  rw [admission_ok testEntropy mA 1 (by decide) (by rw [mA_params_p]; norm_num)
    (by rw [mA_params_p])]
  show Except.ok _ = Except.ok _
  refine congrArg Except.ok ?_
  norm_num [mA, SimpleMonteCarloED.init, testEntropy, List.range_succ]

/-- Witness for C10 at a concrete input: the single admission value 1 is
binary and the two masks count every index exactly once. -/
theorem admissions_binary_partition_witness :
    (∀ x ∈ [1], x = 0 ∨ x = 1)
      ∧ (([1].countP fun x => decide (x = 1)) + ([1].countP fun x => decide (x = 0))
          = [1].length) :=
  (admissions_binary_partition testEntropy mA 1 (by decide)
    (by rw [mA_params_p]; norm_num) (by rw [mA_params_p])).2.1 [1] mA_admission_one
